import Mathlib

/-!
# test-helpers: container builder and setup lifecycle

A shallow embedding of `dist/container/TestContainer.js` and
`dist/utils/SetupHelpers.js`.

* JavaScript values handed to the harness as mocks are `Val`; a mock object is
  described by the three functions the harness looks for on it
  (`clear`, `resetStats`, `reset`), each of which is absent, returns, or throws.
* The MockMap is the object literal `{}` of `build`: own data properties in
  creation order plus its prototype, because `token in mocks`,
  `mocks[token]` and `mocks[token] = mock` all consult the prototype chain.
* Stateful code is a function `World -> Completion × World`; a thrown error
  keeps the state reached so far.
* Calls made on mocks, and every entry into a record's `cleanup`, are appended
  to `World.events` so that "is invoked" can be stated.
-/

set_option autoImplicit false

namespace TestHelpers

/-! ## Values -/

/-- What a mock object carries under one of the method names the harness uses:
nothing callable, a function that returns, or a function that throws. -/
inductive Capability where
  | absent
  | returns
  | throws
  deriving DecidableEq, Repr

/-- The three method names the lifecycle code calls on mocks. -/
inductive Method where
  | clear
  | resetStats
  | reset
  deriving DecidableEq, Repr

/-- A mock object: an identity and what it has under each method name. It has no
other property of its own and inherits from `Object.prototype`. -/
structure Mock where
  id : Nat
  clear : Capability
  resetStats : Capability
  reset : Capability
  deriving DecidableEq, Repr

/-- The property of a mock object found under a method name. -/
def Mock.slot (m : Mock) : Method → Capability
  | .clear => m.clear
  | .resetStats => m.resetStats
  | .reset => m.reset

/-- The property name of a method. -/
def Method.key : Method → String
  | .clear => "clear"
  | .resetStats => "resetStats"
  | .reset => "reset"

/-- JavaScript values that can be supplied as a mock (numbers are integers). -/
inductive Val where
  | undefined
  | null
  | bool (b : Bool)
  | num (n : Int)
  | str (s : String)
  | obj (m : Mock)
  deriving DecidableEq, Repr

/-- JavaScript truthiness, as tested by `if (setup.mocks.logger)` and `mock && ...`. -/
def Val.truthy : Val → Bool
  | .undefined => false
  | .null => false
  | .bool b => b
  | .num n => n != 0
  | .str s => s != ""
  | .obj _ => true

/-- The test `typeof v.reset === 'function'` (for a value that is not null or
undefined; primitives have no such property). -/
def Val.hasFunction (v : Val) (f : Method) : Bool :=
  match v with
  | .obj m => m.slot f != .absent
  | _ => false

/-! ## The MockMap: the object literal `{}` used as a dictionary -/

/-- The prototype of the MockMap object: `Object.prototype` as created by `{}`, or
what an assignment to `__proto__` put there. -/
inductive Proto where
  | objectPrototype
  | null
  | object (m : Mock)
  deriving DecidableEq, Repr

/-- The property names every ordinary object inherits from `Object.prototype`. -/
def objectPrototypeKeys : List String :=
  ["constructor", "__defineGetter__", "__defineSetter__", "hasOwnProperty",
   "__lookupGetter__", "__lookupSetter__", "isPrototypeOf", "propertyIsEnumerable",
   "toString", "valueOf", "__proto__", "toLocaleString"]

/-- Whether a mock object has a property named `k`, own or inherited. -/
def Mock.hasProperty (m : Mock) (k : String) : Bool :=
  (k == "clear" && m.clear != .absent) ||
  (k == "resetStats" && m.resetStats != .absent) ||
  (k == "reset" && m.reset != .absent) ||
  objectPrototypeKeys.contains k

/-- Whether the prototype chain provides a property named `k`. -/
def Proto.has : Proto → String → Bool
  | .objectPrototype, k => objectPrototypeKeys.contains k
  | .null, _ => false
  | .object m, k => m.hasProperty k

/-- The `mocks` object: own data properties in creation order, and its prototype. -/
structure MockMap where
  own : List (String × Val)
  proto : Proto
  deriving DecidableEq, Repr

/-- The object literal `{}` of `const mocks = {}`. -/
def MockMap.empty : MockMap := ⟨[], .objectPrototype⟩

/-- Writing an own data property: the value is replaced in place when the key
exists, and a new property is appended otherwise. -/
def upsert (k : String) (v : Val) : List (String × Val) → List (String × Val)
  | [] => [(k, v)]
  | (k0, v0) :: rest => if k0 = k then (k, v) :: rest else (k0, v0) :: upsert k v rest

/-- The own property under `k`, if there is one. -/
def MockMap.getOwn (m : MockMap) (k : String) : Option Val := m.own.lookup k

/-- Whether `k` is an own property. -/
def MockMap.hasOwn (m : MockMap) (k : String) : Bool := (m.getOwn k).isSome

/-- The operator `k in mocks`: own or inherited. -/
def MockMap.hasProperty (m : MockMap) (k : String) : Bool :=
  m.hasOwn k || m.proto.has k

/-- The assignment `mocks[k] = v`. An own property is overwritten. Otherwise the
prototype chain is consulted: the only setter on it is `__proto__` of
`Object.prototype`, which replaces the prototype when `v` is an object or null
and does nothing for any other value; every other name becomes a new own
property. -/
def MockMap.set (m : MockMap) (k : String) (v : Val) : MockMap :=
  if m.hasOwn k then { m with own := upsert k v m.own }
  else if k = "__proto__" ∧ m.proto ≠ .null then
    match v with
    | .obj o => { m with proto := .object o }
    | .null => { m with proto := .null }
    | _ => m
  else { m with own := upsert k v m.own }

/-- The outcome of reading a property of the MockMap: a value stored by `build`
(or `undefined`), or a property inherited from the prototype chain. -/
inductive Read where
  | value (v : Val)
  | inherited (k : String)
  deriving DecidableEq, Repr

/-- The read `mocks[k]`. -/
def MockMap.get (m : MockMap) (k : String) : Read :=
  match m.getOwn k with
  | some v => .value v
  | none => if m.proto.has k then .inherited k else .value .undefined

/-! ## Options and `build` -/

/-- A property key of a caller-supplied object: a string or a symbol. -/
inductive PropKey where
  | str (s : String)
  | sym (n : Nat)
  deriving DecidableEq, Repr

/-- The options of `build`; `none` is an option that is missing or falsy. A
`customMocks` object is the list of its own enumerable properties in key order;
`baseContainer` is the address of the parent container. -/
structure Options where
  baseContainer : Option Nat := none
  useMocks : Option (List String) := none
  customMocks : Option (List (PropKey × Val)) := none
  deriving Repr

/-- The call `Object.entries(o)`: the string-keyed properties, in order; symbol
keys are not listed. -/
def objectEntries (o : List (PropKey × Val)) : List (PropKey × Val) :=
  o.filter fun kv =>
    match kv.1 with
    | .str _ => true
    | .sym _ => false

/-- The test `options.useMocks?.includes(name)`. -/
def Options.uses (o : Options) (name : String) : Bool :=
  match o.useMocks with
  | some l => l.contains name
  | none => false

/-- The body of the loop over the custom entries: `if (typeof token === 'string')
mocks[token] = mock`. -/
def overlayEntry (m : MockMap) (kv : PropKey × Val) : MockMap :=
  match kv.1 with
  | .str s => m.set s kv.2
  | .sym _ => m

/-- The MockMap computed by `TestContainerBuilder.build` (lines 8 to 24). -/
def buildMocks (o : Options) : MockMap :=
  let m0 := MockMap.empty
  let m1 := if o.uses "logger" then m0.set "logger" .undefined else m0
  let m2 := if o.uses "fileSystem" then m1.set "fileSystem" .undefined else m1
  let m3 := if o.uses "cache" then m2.set "cache" .undefined else m2
  match o.customMocks with
  | none => m3
  | some cm => (objectEntries cm).foldl overlayEntry m3

/-- The recognized mock categories. -/
def recognized : List String := ["logger", "fileSystem", "cache"]

/-- The value a caller-supplied object holds under the string key `k`. -/
def customValue (o : Options) (k : String) : Option Val :=
  match o.customMocks with
  | none => none
  | some cm => cm.lookup (.str k)

/-- An object has each key once. -/
def Options.WellFormed (o : Options) : Prop :=
  ((o.customMocks.getD []).map Prod.fst).Nodup

instance (o : Options) : Decidable o.WellFormed :=
  inferInstanceAs (Decidable (List.Nodup _))

/-! ## Own-property order -/

/-- The number a property name denotes when it is an array index: a canonical
decimal numeral below `2^32 - 1`. Such names are enumerated first, in
ascending numeric order. -/
def arrayIndex (k : String) : Option Nat :=
  match k.data with
  | [] => none
  | c :: cs =>
    if c = '0' ∧ cs ≠ [] then none
    else
      match (c :: cs).foldl
          (fun acc ch => acc.bind fun n =>
            if ch.isDigit then some (10 * n + (ch.toNat - 48)) else none)
          (some 0) with
      | some n => if n < 4294967295 then some n else none
      | none => none

/-- The call `Object.values(mocks)`: the values of the own properties, those
named by array indices first in ascending order, then the others in creation
order. -/
def MockMap.ownValues (m : MockMap) : List Val :=
  ((m.own.filterMap fun kv => (arrayIndex kv.1).map fun n => (n, kv.2)).insertionSort
      (fun a b => a.1 ≤ b.1)).map Prod.snd
    ++ (m.own.filter fun kv => (arrayIndex kv.1).isNone).map Prod.snd

/-- The read `setup.mocks.k` for a name that no prototype in this model provides
(`logger`, `fileSystem`, `cache`): the own value, or `undefined`. -/
def MockMap.field (m : MockMap) (k : String) : Val := (m.getOwn k).getD .undefined

/-! ## Errors and the dependency-injection container -/

/-- A dependency identifier passed to `getMock`. -/
inductive Token where
  | str (s : String)
  | sym (n : Nat)
  | ctor (n : Nat)
  deriving DecidableEq, Repr

/-- Errors raised while the harness runs. -/
inductive JsError where
  | typeError (what : String)
  | configError (message : String)
  | noBinding (t : Token)
  | mockThrew (receiver : Val) (method : Method)
  | testFailed (code : Nat)
  deriving DecidableEq, Repr

/-- Modelled from the spec: the external dependency-injection container
(`inversify`), of which the harness uses `createChild`, `get` and `unbindAll`.
A container has an optional parent and its own registrations. -/
structure Container where
  parent : Option Nat
  bindings : List (Token × Val)
  deriving DecidableEq, Repr

/-- The store of container objects; the address of a container is its index. -/
abbrev Heap := List Container

/-- Modelled from the spec: `new Container()` and `parent.createChild()`: a new
container without registrations of its own is allocated. -/
def allocContainer (parent : Option Nat) (heap : Heap) : Nat × Heap :=
  (heap.length, heap ++ [⟨parent, []⟩])

/-- Modelled from the spec: `container.unbindAll()` removes every registration
of the container. -/
def unbindAll (c : Nat) (heap : Heap) : Heap :=
  heap.modify (fun k => { k with bindings := [] }) c

/-- The registrations of the container at address `c`. -/
def bindingsOf (heap : Heap) (c : Nat) : List (Token × Val) :=
  match heap.get? c with
  | some k => k.bindings
  | none => []

/-- Modelled from the spec: `container.get(token)`, the container's standard
lookup. The container's own registrations are searched, then those of its
ancestors; the lookup fails when nothing matches. -/
def containerGet (heap : Heap) : Nat → Nat → Token → Except JsError Val
  | 0, _, t => .error (.noBinding t)
  | fuel + 1, c, t =>
    match heap.get? c with
    | none => .error (.noBinding t)
    | some k =>
      match k.bindings.lookup t with
      | some v => .ok v
      | none =>
        match k.parent with
        | some p => containerGet heap fuel p t
        | none => .error (.noBinding t)

/-! ## `TestContainerBuilder` -/

/-- The handle returned by `build`: the container and the MockMap. Its
operations `getMock`, `snapshot` and `restore` are the functions below. -/
structure Handle where
  container : Nat
  mocks : MockMap
  deriving DecidableEq, Repr

/-- The builder object: its `snapshots` map from container to snapshot. -/
structure Builder where
  snapshots : List (Nat × Nat)
  deriving DecidableEq, Repr

/-- The call `new TestContainerBuilder()`. -/
def Builder.new : Builder := ⟨[]⟩

/-- The method `Map.prototype.set` on the snapshot table. -/
def mapSet (k v : Nat) : List (Nat × Nat) → List (Nat × Nat)
  | [] => [(k, v)]
  | (k0, v0) :: rest => if k0 = k then (k, v) :: rest else (k0, v0) :: mapSet k v rest

/-- The method `TestContainerBuilder.build`: a child of the base container when
one is given, a new root container otherwise, and the MockMap. -/
def build (o : Options) (heap : Heap) : Handle × Heap :=
  let (c, heap1) := allocContainer o.baseContainer heap
  (⟨c, buildMocks o⟩, heap1)

/-- The handle operation `getMock(token)`. -/
def getMock (h : Handle) (heap : Heap) (token : Token) : Except JsError Read :=
  match token with
  | .str s =>
    if h.mocks.hasProperty s then .ok (h.mocks.get s)
    else (containerGet heap (heap.length + 1) h.container token).map Read.value
  | _ => (containerGet heap (heap.length + 1) h.container token).map Read.value

/-- The method `snapshotContainer`: a child of the container is created and
recorded as its snapshot. -/
def snapshotContainer (c : Nat) (s : Builder × Heap) : Builder × Heap :=
  let (snap, heap1) := allocContainer (some c) s.2
  (⟨mapSet c snap s.1.snapshots⟩, heap1)

/-- The method `restoreContainer`: when a snapshot is recorded for the
container, every registration of the container is removed. -/
def restoreContainer (c : Nat) (s : Builder × Heap) : Builder × Heap :=
  match s.1.snapshots.lookup c with
  | some _ => (s.1, unbindAll c s.2)
  | none => s

/-- What can happen to a builder and its containers between two calls: the
builder builds another handle, a snapshot or a restore is requested for some
container, or a caller changes the registrations of some container. -/
inductive Op where
  | build (o : Options)
  | snapshot (c : Nat)
  | restore (c : Nat)
  | rebind (c : Nat) (f : List (Token × Val) → List (Token × Val))

/-- One operation on a builder and its containers. -/
def Op.run : Op → Builder × Heap → Builder × Heap
  | .build o, s => (s.1, (TestHelpers.build o s.2).2)
  | .snapshot c, s => snapshotContainer c s
  | .restore c, s => restoreContainer c s
  | .rebind c f, s => (s.1, s.2.modify (fun k => { k with bindings := f k.bindings }) c)

/-- A sequence of operations, in order. -/
def runOps (ops : List Op) (s : Builder × Heap) : Builder × Heap :=
  ops.foldl (fun acc op => op.run acc) s

/-! ## Setup lifecycle (`SetupHelpers.js`) -/

/-- What is recorded while the harness runs: a call of a method on a mock, and
the entry into the `cleanup` of the record with the given identity. -/
inductive Event where
  | called (receiver : Val) (method : Method)
  | cleanupEntered (setup : Nat)
  deriving DecidableEq, Repr

/-- The record returned by `setupTest`: its identity as an object, its container
and its MockMap. Its operations `cleanup` and `reset` are the functions below. -/
structure SetupRecord where
  id : Nat
  container : Nat
  mocks : MockMap
  deriving DecidableEq, Repr

/-- The state the lifecycle code works on: the containers, the module-level set
`activeSetups` in insertion order, the next object identity, and the events
recorded so far. -/
structure World where
  heap : Heap
  activeSetups : List SetupRecord
  nextId : Nat
  events : List Event
  deriving DecidableEq, Repr

/-- How a piece of code completes. -/
inductive Completion where
  | normal
  | throw (e : JsError)
  deriving DecidableEq, Repr

/-- A piece of stateful code. -/
abbrev Action := World → Completion × World

/-- Doing nothing. -/
def skip : Action := fun w => (.normal, w)

/-- Sequencing: the second action runs only when the first completes normally. -/
def andThen (a b : Action) : Action := fun w =>
  match a w with
  | (.normal, w1) => b w1
  | (.throw e, w1) => (.throw e, w1)

/-- Appending an event. -/
def World.log (w : World) (e : Event) : World := { w with events := w.events ++ [e] }

/-- The call `v.f()`: a type error when `v` has no function `f`; otherwise the
function is invoked, and it returns or throws. -/
def callMethod (v : Val) (f : Method) : Action := fun w =>
  match v with
  | .obj m =>
    match m.slot f with
    | .absent => (.throw (.typeError (f.key ++ " is not a function")), w)
    | .returns => (.normal, w.log (.called v f))
    | .throws => (.throw (.mockThrew v f), w.log (.called v f))
  | _ => (.throw (.typeError (f.key ++ " is not a function")), w)

/-- The three `if` statements shared by `cleanup` (lines 11 to 20) and `reset`
(lines 29 to 38). -/
def clearMocks (mocks : MockMap) : Action :=
  andThen (if (mocks.field "logger").truthy then callMethod (mocks.field "logger") .clear else skip)
  (andThen
    (if (mocks.field "fileSystem").truthy then callMethod (mocks.field "fileSystem") .clear
     else skip)
    (if (mocks.field "cache").truthy then
       andThen (callMethod (mocks.field "cache") .clear)
         (callMethod (mocks.field "cache") .resetStats)
     else skip))

/-- The loop of lines 21 to 25 over `Object.values(setup.mocks)`. -/
def resetLoop : List Val → Action
  | [] => skip
  | v :: rest =>
    andThen (if v.truthy && v.hasFunction .reset then callMethod v .reset else skip)
      (resetLoop rest)

/-- The call `activeSetups.delete(setup)`. -/
def deregister (r : SetupRecord) : Action := fun w =>
  (.normal, { w with activeSetups := w.activeSetups.filter fun x => x.id != r.id })

/-- The operation `cleanup` of a setup record. -/
def cleanup (r : SetupRecord) : Action :=
  andThen (fun w => (.normal, w.log (.cleanupEntered r.id)))
    (andThen (clearMocks r.mocks)
      (andThen (resetLoop r.mocks.ownValues) (deregister r)))

/-- The operation `reset` of a setup record. -/
def reset (r : SetupRecord) : Action := clearMocks r.mocks

/-- Whether the record is in `activeSetups`. -/
def World.registered (w : World) (r : SetupRecord) : Bool :=
  w.activeSetups.any fun x => x.id == r.id

/-- The function `setupTest`: a builder is created, the handle is built, and the
new record is added to `activeSetups`. -/
def setupTest (o : Options) (w : World) : SetupRecord × World :=
  let (h, heap1) := build o w.heap
  let r : SetupRecord := ⟨w.nextId, h.container, h.mocks⟩
  (r, { w with
        heap := heap1
        nextId := w.nextId + 1
        activeSetups := if w.registered r then w.activeSetups else w.activeSetups ++ [r] })

/-- The loop `for (const setup of activeSetups) setup.cleanup()`: the set is
walked in insertion order, and an element deleted before it is reached is not
visited. -/
def sweepLoop : List SetupRecord → Action
  | [] => skip
  | r :: rest => fun w =>
    if w.registered r then andThen (cleanup r) (sweepLoop rest) w
    else sweepLoop rest w

/-- The function `cleanupAllTests`. -/
def cleanupAllTests : Action := fun w =>
  andThen (sweepLoop w.activeSetups) (fun w1 => (.normal, { w1 with activeSetups := [] })) w

/-- How the call of a test function ends: it throws before returning, it returns
something that is not a promise, or it returns a promise that fulfils, rejects,
or stays pending. -/
inductive TestRun where
  | throwsSync (e : JsError)
  | returnsNonPromise (v : Val)
  | fulfils (v : Val)
  | rejects (e : JsError)
  | pending
  deriving DecidableEq, Repr

/-- What a call of the test function amounts to at the moment its promise
settles (or its call throws; for good when the promise stays pending): how it
ends, the object `setup.mocks` as the test left it, and the state as the test
and whatever ran meanwhile left it. The test receives the record itself, so it
can assign into `setup.mocks`, call the mocks, and call the lifecycle
functions. -/
structure TestOutcome where
  run : TestRun
  mocks : MockMap
  world : World
  deriving DecidableEq, Repr

/-- A caller-supplied test function: given the record and the state in which it
is called, what its call amounts to. -/
abbrev TestFn := SetupRecord → World → TestOutcome

/-- What the caller of `withTestContext` gets: an error thrown by the call, or
the returned promise, fulfilled, rejected or pending. -/
inductive ContextResult where
  | threw (e : JsError)
  | fulfilled (v : Val)
  | rejected (e : JsError)
  | pending
  deriving DecidableEq, Repr

/-- The call `testFn(setup)` inside `withTestContext(options, testFn)`, on the
record that `setupTest(options)` has just created. -/
def settlement (o : Options) (testFn : TestFn) (w : World) : TestOutcome :=
  testFn (setupTest o w).1 (setupTest o w).2

/-- The record of `withTestContext` as `cleanup` finds it: the object created by
`setupTest`, with `setup.mocks` as the test left it. -/
def settledRecord (o : Options) (testFn : TestFn) (w : World) : SetupRecord :=
  { (setupTest o w).1 with mocks := (settlement o testFn w).mocks }

/-- The function `withTestContext`: `testFn(setup).finally(() => setup.cleanup())`.
A call that throws, or that returns no promise, ends `withTestContext` before
the callback is attached. The callback of `finally` runs once the promise has
settled, on the record and in the state of that moment, and never while the
promise is pending; when the callback throws, the resulting promise rejects
with that error, otherwise it settles as the original one. -/
def withTestContext (o : Options) (testFn : TestFn) (w : World) : ContextResult × World :=
  match (settlement o testFn w).run with
  | .throwsSync e => (.threw e, (settlement o testFn w).world)
  | .returnsNonPromise _ =>
    (.threw (.typeError "finally is not a function"), (settlement o testFn w).world)
  | .pending => (.pending, (settlement o testFn w).world)
  | .fulfils v =>
    match cleanup (settledRecord o testFn w) (settlement o testFn w).world with
    | (.normal, w2) => (.fulfilled v, w2)
    | (.throw e, w2) => (.rejected e, w2)
  | .rejects e0 =>
    match cleanup (settledRecord o testFn w) (settlement o testFn w).world with
    | (.normal, w2) => (.rejected e0, w2)
    | (.throw e, w2) => (.rejected e, w2)

/-- A test case: its name and its data. -/
structure TestCase where
  name : String
  data : Nat
  deriving DecidableEq, Repr

/-- Modelled from the spec: the test runner. The global `it` is either not
defined or the registration function, which adds a test under a name; the
registered body `() => testFn(testCase)` is represented by its case. -/
structure Runner where
  hasIt : Bool
  tests : List (String × TestCase)
  deriving DecidableEq, Repr

/-- The function `testEach`. -/
def testEach : List TestCase → Runner → Completion × Runner
  | [], run => (.normal, run)
  | c :: rest, run =>
    if run.hasIt then testEach rest { run with tests := run.tests ++ [(c.name, c)] }
    else (.throw (.configError "testEach requires a test runner with global `it` function"), run)

/-! ## Sample inputs -/

/-- A cache mock with `clear` and `resetStats` and no `reset`. -/
def fakeCache : Mock := ⟨1, .returns, .returns, .absent⟩

/-- A mock object without any of the three functions, such as `{}`. -/
def bareMock : Mock := ⟨2, .absent, .absent, .absent⟩

/-- A mock with all three functions. -/
def fullMock : Mock := ⟨3, .returns, .returns, .returns⟩

/-- The options `{useMocks: ['cache'], customMocks: {cache: fakeCache}}`. -/
def cacheOptions : Options :=
  { useMocks := some ["cache"], customMocks := some [(.str "cache", .obj fakeCache)] }

/-- The world before anything has run. -/
def World.initial : World := ⟨[], [], 0, []⟩

/-- The options whose `customMocks` is the object read from the JSON text
`{"__proto__": 1, "db": 2}`: it has an own property named `__proto__`. -/
def protoKeyOptions : Options :=
  { customMocks := some [(.str "__proto__", .num 1), (.str "db", .num 2)] }

/-- A registration used in the examples. -/
def sampleBinding : Token × Val := (.str "db", .num 5)

/-- A caller registering `sampleBinding` on the container at address `c`. -/
def bindSample (c : Nat) : Op := .rebind c fun bs => bs ++ [sampleBinding]

/-! ## Descriptions used in the statements about the lifecycle -/

/-- Whether the call `v.f()` returns: `v` is an object whose `f` is a function
that returns. -/
def Val.returnsFrom (v : Val) (f : Method) : Bool :=
  match v with
  | .obj m => m.slot f == .returns
  | _ => false

/-- Whether no call made by `cleanup` on these mocks raises: each of `logger`,
`fileSystem`, `cache` that is truthy has a `clear` that returns (and `cache` a
`resetStats` that returns), and every `reset` function in the MockMap returns. -/
def cleanupSafe (mocks : MockMap) : Bool :=
  (!(mocks.field "logger").truthy || (mocks.field "logger").returnsFrom .clear) &&
  (!(mocks.field "fileSystem").truthy || (mocks.field "fileSystem").returnsFrom .clear) &&
  (!(mocks.field "cache").truthy ||
    ((mocks.field "cache").returnsFrom .clear && (mocks.field "cache").returnsFrom .resetStats)) &&
  mocks.ownValues.all fun v => !(v.hasFunction .reset) || v.returnsFrom .reset

/-- The calls the spec lists first for `cleanup` and `reset`: `clear` on each of
the `logger`, `fileSystem` and `cache` mocks that passes the `if`, and
`resetStats` on the `cache` mock as well. -/
def expectedClearCalls (mocks : MockMap) : List Event :=
  (if (mocks.field "logger").truthy then [Event.called (mocks.field "logger") .clear] else []) ++
  (if (mocks.field "fileSystem").truthy then [Event.called (mocks.field "fileSystem") .clear]
   else []) ++
  (if (mocks.field "cache").truthy then
     [Event.called (mocks.field "cache") .clear, Event.called (mocks.field "cache") .resetStats]
   else [])

/-- The calls the spec lists next for `cleanup`: `reset` on every mock of the
MockMap that has a `reset` function. -/
def expectedResetCalls (mocks : MockMap) : List Event :=
  (mocks.ownValues.filter fun v => v.hasFunction .reset).map fun v => Event.called v .reset

/-- Everything one `cleanup` of the record records when no call raises. -/
def cleanupTrace (r : SetupRecord) : List Event :=
  Event.cleanupEntered r.id :: (expectedClearCalls r.mocks ++ expectedResetCalls r.mocks)

/-- An action that touches nothing but the event list, and completes and
records the same way in every state. -/
def Uniform (a : Action) (c : Completion) (d : List Event) : Prop :=
  ∀ w, a w = (c, { w with events := w.events ++ d })

/-- An action that is uniform and records only events satisfying `P`. -/
def Emits (P : Event → Prop) (a : Action) : Prop :=
  ∃ c d, Uniform a c d ∧ ∀ e ∈ d, P e

/-- The options `{customMocks: {logger: {}}}`: the `logger` mock is an object
without `clear`. -/
def bareLoggerOptions : Options := { customMocks := some [(.str "logger", .obj bareMock)] }

/-- The options `{customMocks: {logger: false}}`: the `logger` entry is present and
not null, and falsy. -/
def falseLoggerOptions : Options := { customMocks := some [(.str "logger", .bool false)] }

/-- Options with a cache mock, a custom mock with all three functions, and a
custom mock without `reset`. -/
def sampleOptions : Options :=
  { useMocks := some ["logger", "cache"]
    customMocks := some
      [(.str "cache", .obj fakeCache), (.str "db", .obj fullMock), (.str "7", .obj bareMock)] }

/-- The world after `setupTest({customMocks: {logger: {}}})` followed by
`setupTest(sampleOptions)`: two records are registered. -/
def twoSetups : World :=
  (setupTest sampleOptions (setupTest bareLoggerOptions World.initial).2).2

/-- The world after `setupTest(sampleOptions)` followed by `setupTest(cacheOptions)`. -/
def twoSafeSetups : World :=
  (setupTest cacheOptions (setupTest sampleOptions World.initial).2).2

/-- Two test cases. -/
def sampleCases : List TestCase := [⟨"adds", 1⟩, ⟨"subtracts", 2⟩]

/-- The copy of a record's MockMap held in the registry, brought in step with an
assignment made through the record. -/
def World.setMocks (w : World) (id : Nat) (m : MockMap) : World :=
  { w with
    activeSetups := w.activeSetups.map fun x =>
      if x.id = id then { x with mocks := m } else x }

/-- The test function `() => { throw e }`: it throws before returning a promise. -/
def throwingTest (e : JsError) : TestFn := fun r w => ⟨.throwsSync e, r.mocks, w⟩

/-- The test function `async () => v`: it touches nothing and its promise
fulfils. -/
def idleTest (v : Val) : TestFn := fun r w => ⟨.fulfils v, r.mocks, w⟩

/-- The test function `async s => { s.mocks.logger = v }`. -/
def assignLoggerTest (v : Val) : TestFn := fun r w =>
  ⟨.fulfils .undefined, r.mocks.set "logger" v, w.setMocks r.id (r.mocks.set "logger" v)⟩

/-- The test function `async s => { s.mocks.db.reset(); throw e }`, on a record
whose `db` mock has a `reset` that returns: the mock is used while the test
runs, and the promise rejects. -/
def usingDbTest (e : JsError) : TestFn := fun r w =>
  ⟨.rejects e, r.mocks, w.log (.called (r.mocks.field "db") .reset)⟩

/-- The test function `s => new Promise(() => { s.mocks.db.reset() })`: the mock
is used and the promise never settles. -/
def hangingTest : TestFn := fun r w =>
  ⟨.pending, r.mocks, w.log (.called (r.mocks.field "db") .reset)⟩

/-- The options `{useMocks: ['logger']}`. -/
def loggerOptions : Options := { useMocks := some ["logger"] }

/-! ## Lemmas on the MockMap -/

theorem lookup_upsert_self (k : String) (v : Val) (l : List (String × Val)) :
    (upsert k v l).lookup k = some v := by
  induction l with
  | nil => simp [upsert, List.lookup]
  | cons hd tl ih =>
    obtain ⟨k0, v0⟩ := hd
    by_cases h : k0 = k
    · simp [upsert, h, List.lookup]
    · have h2 : (k == k0) = false := by simpa using fun e => h e.symm
      simp [upsert, h, List.lookup, h2, ih]

theorem lookup_upsert_other (k j : String) (v : Val) (l : List (String × Val)) (h : j ≠ k) :
    (upsert k v l).lookup j = l.lookup j := by
  induction l with
  | nil =>
    have h2 : (j == k) = false := by simpa using h
    simp [upsert, List.lookup, h2]
  | cons hd tl ih =>
    obtain ⟨k0, v0⟩ := hd
    by_cases h1 : k0 = k
    · subst h1
      have h2 : (j == k0) = false := by simpa using h
      simp [upsert, List.lookup, h2]
    · by_cases h3 : j = k0
      · subst h3
        simp [upsert, h1, List.lookup]
      · have h2 : (j == k0) = false := by simpa using h3
        simp [upsert, h1, List.lookup, h2, ih]

theorem getOwn_set_self (m : MockMap) (k : String) (v : Val)
    (h : m.hasOwn k = true ∨ k ≠ "__proto__") : (m.set k v).getOwn k = some v := by
  unfold MockMap.set
  by_cases h1 : m.hasOwn k = true
  · simp [h1, MockMap.getOwn, lookup_upsert_self]
  · have h2 : k ≠ "__proto__" := by
      rcases h with h | h
      · exact absurd h h1
      · exact h
    simp [h1, h2, MockMap.getOwn, lookup_upsert_self]

theorem getOwn_set_other (m : MockMap) (k j : String) (v : Val) (h : j ≠ k) :
    (m.set k v).getOwn j = m.getOwn j := by
  unfold MockMap.set
  split
  · simp [MockMap.getOwn, lookup_upsert_other _ _ _ _ h]
  · split
    · split <;> rfl
    · simp [MockMap.getOwn, lookup_upsert_other _ _ _ _ h]

theorem getOwn_overlayEntry_other (m : MockMap) (kv : PropKey × Val) (j : String)
    (h : kv.1 ≠ .str j) : (overlayEntry m kv).getOwn j = m.getOwn j := by
  obtain ⟨key, v⟩ := kv
  cases key with
  | str s =>
    have hs : j ≠ s := fun e => h (by simp [e])
    simp [overlayEntry, getOwn_set_other _ _ _ _ hs]
  | sym n => simp [overlayEntry]

theorem lookup_eq_none_of_not_mem (cm : List (PropKey × Val)) (key : PropKey)
    (h : key ∉ cm.map Prod.fst) : cm.lookup key = none := by
  induction cm with
  | nil => rfl
  | cons hd tl ih =>
    obtain ⟨k0, v0⟩ := hd
    simp only [List.map_cons, List.mem_cons, not_or] at h
    have h2 : (key == k0) = false := by simpa using h.1
    simp [List.lookup, h2, ih h.2]

theorem objectEntries_cons (kv : PropKey × Val) (cm : List (PropKey × Val)) :
    objectEntries (kv :: cm) =
      match kv.1 with
      | .str _ => kv :: objectEntries cm
      | .sym _ => objectEntries cm := by
  obtain ⟨key, v⟩ := kv
  cases key <;> simp [objectEntries, List.filter]

/-- Folding the custom entries over a map that already owns `j`: the own value
of `j` ends as the custom value when there is one, and is kept otherwise. -/
theorem getOwn_overlay (cm : List (PropKey × Val)) (hnd : (cm.map Prod.fst).Nodup)
    (j : String) (hj : j ≠ "__proto__") (m : MockMap) (d : Val) (hm : m.getOwn j = some d) :
    ((objectEntries cm).foldl overlayEntry m).getOwn j
      = some ((cm.lookup (.str j)).getD d) := by
  induction cm generalizing m d with
  | nil => simpa [objectEntries] using hm
  | cons hd tl ih =>
    obtain ⟨key, v⟩ := hd
    simp only [List.map_cons, List.nodup_cons] at hnd
    cases key with
    | sym n =>
      have h2 : ((PropKey.str j) == (PropKey.sym n)) = false := by simp
      simp only [objectEntries_cons, List.lookup, h2]
      exact ih hnd.2 m d hm
    | str s =>
      simp only [objectEntries_cons, List.foldl_cons]
      by_cases hs : s = j
      · subst hs
        have h3 : tl.lookup (.str s) = none := lookup_eq_none_of_not_mem tl _ hnd.1
        have h4 := ih hnd.2 (overlayEntry m (.str s, v)) v
          (by simpa [overlayEntry] using getOwn_set_self m s v (Or.inr hj))
        simpa [List.lookup, h3] using h4
      · have h2 : ((PropKey.str j) == (PropKey.str s)) = false := by
          simpa using fun e => hs e.symm
        have h4 := ih hnd.2 (overlayEntry m (.str s, v)) d
          (by
            rw [getOwn_overlayEntry_other]
            · exact hm
            · simpa using hs)
        simpa [List.lookup, h2] using h4

/-- The seeding of lines 9 to 17: a recognized name that is listed is an own
property mapped to `undefined` before the custom entries are merged. -/
theorem getOwn_seed (o : Options) (k : String) (hk : k ∈ recognized) (hu : o.uses k = true) :
    (let m0 := MockMap.empty
     let m1 := if o.uses "logger" then m0.set "logger" .undefined else m0
     let m2 := if o.uses "fileSystem" then m1.set "fileSystem" .undefined else m1
     if o.uses "cache" then m2.set "cache" .undefined else m2).getOwn k = some .undefined := by
  simp only [recognized, List.mem_cons, List.mem_singleton, List.not_mem_nil, or_false] at hk
  rcases hk with rfl | rfl | rfl
  · simp only [hu, if_true]
    split
    · split
      · rw [getOwn_set_other _ _ _ _ (by decide), getOwn_set_other _ _ _ _ (by decide)]
        exact getOwn_set_self _ _ _ (Or.inr (by decide))
      · rw [getOwn_set_other _ _ _ _ (by decide)]
        exact getOwn_set_self _ _ _ (Or.inr (by decide))
    · split
      · rw [getOwn_set_other _ _ _ _ (by decide)]
        exact getOwn_set_self _ _ _ (Or.inr (by decide))
      · exact getOwn_set_self _ _ _ (Or.inr (by decide))
  · simp only [hu, if_true]
    split
    · rw [getOwn_set_other _ _ _ _ (by decide)]
      exact getOwn_set_self _ _ _ (Or.inr (by decide))
    · exact getOwn_set_self _ _ _ (Or.inr (by decide))
  · simp only [hu, if_true]
    exact getOwn_set_self _ _ _ (Or.inr (by decide))

/-- C1. For every options object, the MockMap of the handle returned by `build`
has every recognized category name listed in `useMocks` as an own key; the key
is mapped to `undefined` when `customMocks` has no entry under it and to the
`customMocks` value when it has one. -/
theorem build_recognized_mocks (o : Options) (heap : Heap) (hwf : o.WellFormed)
    (names : List String) (k : String) (hnames : o.useMocks = some names)
    (hk : k ∈ recognized) (hlisted : k ∈ names) :
    (build o heap).1.mocks.getOwn k = some ((customValue o k).getD .undefined) := by
  have hu : o.uses k = true := by simp [Options.uses, hnames, hlisted]
  have hp : k ≠ "__proto__" := by
    simp only [recognized, List.mem_cons, List.mem_singleton, List.not_mem_nil, or_false] at hk
    rcases hk with rfl | rfl | rfl <;> decide
  have hseed := getOwn_seed o k hk hu
  show (buildMocks o).getOwn k = _
  unfold buildMocks customValue
  unfold Options.WellFormed at hwf
  cases hc : o.customMocks with
  | none => simpa using hseed
  | some cm =>
    rw [hc] at hwf
    simpa using getOwn_overlay cm (by simpa using hwf) k hp _ .undefined hseed

/-- C1 at the examples of the claim: `build({useMocks:['cache']})` yields
`{cache: undefined}`, and with `customMocks: {cache: fakeCache}` the key `cache`
is mapped to `fakeCache`. -/
theorem build_recognized_mocks_witness :
    (build { useMocks := some ["cache"] } []).1.mocks.own = [("cache", .undefined)] ∧
    cacheOptions.WellFormed ∧ cacheOptions.useMocks = some ["cache"] ∧
    "cache" ∈ recognized ∧ "cache" ∈ ["cache"] ∧
    (build cacheOptions []).1.mocks.getOwn "cache"
      = some ((customValue cacheOptions "cache").getD .undefined) ∧
    (customValue cacheOptions "cache").getD .undefined = .obj fakeCache :=
  ⟨by decide, by decide, rfl, by decide, by decide,
   build_recognized_mocks cacheOptions [] (by decide) ["cache"] "cache" rfl (by decide)
     (by decide),
   by decide⟩

/-! ## `build`: custom entries -/

/-- Symbol-keyed properties of `customMocks` never reach the loop body: `build`
computes the same MockMap when they are removed. -/
theorem build_ignores_symbol_keys (o : Options) :
    buildMocks o = buildMocks { o with customMocks := o.customMocks.map objectEntries } := by
  unfold buildMocks
  cases h : o.customMocks with
  | none => simp [Options.uses]
  | some cm => simp [Options.uses, objectEntries, List.filter_filter]

/-- Every string-keyed custom entry other than `__proto__` is an own property of
the MockMap with the supplied value. -/
theorem overlay_string_entry (cm : List (PropKey × Val)) (hnd : (cm.map Prod.fst).Nodup)
    (s : String) (v : Val) (hs : s ≠ "__proto__") (hmem : (PropKey.str s, v) ∈ cm)
    (m : MockMap) : ((objectEntries cm).foldl overlayEntry m).getOwn s = some v := by
  induction cm generalizing m with
  | nil => simp at hmem
  | cons hd tl ih =>
    obtain ⟨key, v0⟩ := hd
    simp only [List.map_cons, List.nodup_cons] at hnd
    rcases List.mem_cons.mp hmem with heq | htl
    · have hk : key = .str s := (Prod.mk.inj heq).1.symm
      have hv : v0 = v := (Prod.mk.inj heq).2.symm
      subst hk hv
      have h3 : tl.lookup (.str s) = none := lookup_eq_none_of_not_mem tl _ hnd.1
      have h4 := getOwn_overlay tl hnd.2 s hs (overlayEntry m (.str s, v0)) v0
        (by simpa [overlayEntry] using getOwn_set_self m s v0 (Or.inr hs))
      simpa [objectEntries_cons, h3] using h4
    · have hne : key ≠ .str s := by
        intro e
        apply hnd.1
        rw [e]
        exact List.mem_map.mpr ⟨(.str s, v), htl, rfl⟩
      cases key with
      | sym n => simpa [objectEntries_cons] using ih hnd.2 htl m
      | str t => simpa [objectEntries_cons] using ih hnd.2 htl (overlayEntry m (.str t, v0))

/-- C9, the failing input: `customMocks` has the own string key `__proto__`
(as after `JSON.parse`). The assignment `mocks['__proto__'] = 1` reaches the
setter of `Object.prototype` and stores nothing: the entry is not in the
MockMap, whose only own property is `db`, and reading `mocks['__proto__']`
does not give the supplied value. -/
theorem build_drops_proto_key :
    protoKeyOptions.WellFormed ∧
    (PropKey.str "__proto__", Val.num 1) ∈ protoKeyOptions.customMocks.getD [] ∧
    (build protoKeyOptions []).1.mocks.own = [("db", .num 2)] ∧
    (build protoKeyOptions []).1.mocks.getOwn "__proto__" = none ∧
    (build protoKeyOptions []).1.mocks.get "__proto__" ≠ .value (.num 1) := by
  decide

/-! ## `getMock` -/

/-- The handle `build({})` on any store of containers: a new root container
without registrations, and a MockMap without own properties. -/
theorem build_empty (heap : Heap) :
    build {} heap = (⟨heap.length, MockMap.empty⟩, heap ++ [⟨none, []⟩]) := by
  rfl

/-- Where `getMock` behaves as described: a token that is not a string, and a
string that is neither an own key nor an inherited name, are resolved by the
container; a string that is an own key yields the entry, `undefined` included. -/
theorem getMock_spec (h : Handle) (heap : Heap) :
    (∀ n, getMock h heap (.sym n)
        = (containerGet heap (heap.length + 1) h.container (.sym n)).map Read.value) ∧
    (∀ n, getMock h heap (.ctor n)
        = (containerGet heap (heap.length + 1) h.container (.ctor n)).map Read.value) ∧
    (∀ s v, h.mocks.getOwn s = some v → getMock h heap (.str s) = .ok (.value v)) ∧
    (∀ s, h.mocks.getOwn s = none → h.mocks.proto.has s = false →
      getMock h heap (.str s)
        = (containerGet heap (heap.length + 1) h.container (.str s)).map Read.value) := by
  refine ⟨fun n => rfl, fun n => rfl, fun s v hv => ?_, fun s hn hp => ?_⟩
  · simp [getMock, MockMap.hasProperty, MockMap.hasOwn, MockMap.get, hv]
  · simp [getMock, MockMap.hasProperty, MockMap.hasOwn, hn, hp]

/-- C2, the failing input: on the handle `build({})`, whose MockMap has no key,
`getMock('toString')` does not ask the container (which has no binding and
would raise) but returns the function the MockMap object inherits from
`Object.prototype`, because `'toString' in mocks` holds. -/
theorem getMock_inherited_name (heap : Heap) :
    (build {} heap).1.mocks.own = [] ∧
    getMock (build {} heap).1 (build {} heap).2 (.str "toString")
      = .ok (.inherited "toString") ∧
    (containerGet (build {} heap).2 ((build {} heap).2.length + 1) (build {} heap).1.container
        (.str "toString")).map Read.value
      = .error (.noBinding (.str "toString")) := by
  rw [build_empty]
  refine ⟨rfl, rfl, ?_⟩
  simp [containerGet]
  rfl

/-! ## `snapshot` and `restore` -/

theorem lookup_mapSet_self (k v : Nat) (l : List (Nat × Nat)) :
    (mapSet k v l).lookup k = some v := by
  induction l with
  | nil => simp [mapSet, List.lookup]
  | cons hd tl ih =>
    obtain ⟨k0, v0⟩ := hd
    by_cases h : k0 = k
    · simp [mapSet, h, List.lookup]
    · have h2 : (k == k0) = false := by simpa using fun e => h e.symm
      simp [mapSet, h, List.lookup, h2, ih]

theorem lookup_mapSet_isSome (k v j : Nat) (l : List (Nat × Nat))
    (h : (l.lookup j).isSome = true) : ((mapSet k v l).lookup j).isSome = true := by
  by_cases hjk : j = k
  · subst hjk
    simp [lookup_mapSet_self]
  · induction l with
    | nil => simp [List.lookup] at h
    | cons hd tl ih =>
      obtain ⟨k0, v0⟩ := hd
      by_cases h1 : k0 = k
      · subst h1
        have h2 : (j == k0) = false := by simpa using hjk
        simp only [List.lookup, h2] at h
        simpa [mapSet, List.lookup, h2] using h
      · by_cases h3 : j = k0
        · subst h3
          simp [mapSet, h1, List.lookup]
        · have h2 : (j == k0) = false := by simpa using h3
          simp only [List.lookup, h2] at h
          simpa [mapSet, h1, List.lookup, h2] using ih h

/-- No operation removes an entry of the snapshot table. -/
theorem snapshot_recorded_run (op : Op) (s : Builder × Heap) (c : Nat)
    (h : (s.1.snapshots.lookup c).isSome = true) :
    ((op.run s).1.snapshots.lookup c).isSome = true := by
  cases op with
  | build o => exact h
  | snapshot d => exact lookup_mapSet_isSome _ _ _ _ h
  | restore d =>
    simp only [Op.run, restoreContainer]
    split <;> exact h
  | rebind d f => exact h

theorem snapshot_recorded_runOps (ops : List Op) (s : Builder × Heap) (c : Nat)
    (h : (s.1.snapshots.lookup c).isSome = true) :
    ((runOps ops s).1.snapshots.lookup c).isSome = true := by
  induction ops generalizing s with
  | nil => exact h
  | cons op rest ih => exact ih (op.run s) (snapshot_recorded_run op s c h)

theorem bindingsOf_unbindAll (heap : Heap) (c : Nat) : bindingsOf (unbindAll c heap) c = [] := by
  unfold bindingsOf unbindAll
  rw [List.get?_eq_getElem?, List.getElem?_modify_eq]
  cases heap[c]? <;> rfl

/-- With a snapshot recorded for the container, `restore` leaves it without
registrations. -/
theorem restore_recorded (c : Nat) (s : Builder × Heap)
    (h : (s.1.snapshots.lookup c).isSome = true) :
    bindingsOf (restoreContainer c s).2 c = [] := by
  unfold restoreContainer
  cases hl : s.1.snapshots.lookup c with
  | none => simp [hl] at h
  | some snap => exact bindingsOf_unbindAll s.2 c

/-- C8. For the handle returned by `build` (on any builder and any store of
containers): after whatever happened before, `snapshot()`, whatever happens
next, and `restore()`, the container has zero registrations, so registrations
that existed at snapshot time are not there; and in a state where no snapshot
is recorded for the container, `restore()` changes nothing. -/
theorem restore_after_snapshot (o : Options) (b : Builder) (heap : Heap)
    (before after : List Op) :
    bindingsOf
        (restoreContainer (build o heap).1.container
          (runOps after (snapshotContainer (build o heap).1.container
            (runOps before (b, (build o heap).2))))).2
        (build o heap).1.container = [] ∧
    (bindingsOf (runOps before (b, (build o heap).2)).2 (build o heap).1.container ≠ [] →
      bindingsOf
          (restoreContainer (build o heap).1.container
            (runOps after (snapshotContainer (build o heap).1.container
              (runOps before (b, (build o heap).2))))).2
          (build o heap).1.container
        ≠ bindingsOf (runOps before (b, (build o heap).2)).2 (build o heap).1.container) ∧
    (∀ s : Builder × Heap, s.1.snapshots.lookup (build o heap).1.container = none →
      restoreContainer (build o heap).1.container s = s) := by
  have key : bindingsOf
        (restoreContainer (build o heap).1.container
          (runOps after (snapshotContainer (build o heap).1.container
            (runOps before (b, (build o heap).2))))).2
        (build o heap).1.container = [] := by
    apply restore_recorded
    apply snapshot_recorded_runOps
    simp [snapshotContainer, allocContainer, lookup_mapSet_self]
  refine ⟨key, fun hne => ?_, fun s hs => ?_⟩
  · rw [key]
    exact fun e => hne e.symm
  · simp [restoreContainer, hs]

/-- C8 on a sample run: a handle is built, a registration is added, `snapshot()`
is called, a second registration is added, and `restore()` leaves the container
with zero registrations; on a new builder without snapshot, `restore()` leaves
the registration in place. -/
theorem restore_after_snapshot_witness :
    bindingsOf (runOps [bindSample 0] (Builder.new, (build {} []).2)).2 0 = [sampleBinding] ∧
    bindingsOf
        (restoreContainer 0
          (runOps [bindSample 0] (snapshotContainer 0
            (runOps [bindSample 0] (Builder.new, (build {} []).2))))).2 0 = [] ∧
    (runOps [bindSample 0] (Builder.new, (build {} []).2)).1.snapshots.lookup 0 = none ∧
    restoreContainer 0 (runOps [bindSample 0] (Builder.new, (build {} []).2))
      = runOps [bindSample 0] (Builder.new, (build {} []).2) :=
  ⟨by decide,
   (restore_after_snapshot {} Builder.new [] [bindSample 0] [bindSample 0]).1,
   by decide,
   (restore_after_snapshot {} Builder.new [] [bindSample 0] [bindSample 0]).2.2 _ (by decide)⟩

/-! ## Lemmas on the lifecycle -/

theorem World.events_append_nil (w : World) : { w with events := w.events ++ [] } = w := by
  cases w
  simp

theorem emits_skip (P : Event → Prop) : Emits P skip :=
  ⟨.normal, [], fun w => by simp [skip], fun e he => by simp at he⟩

theorem emits_callMethod (P : Event → Prop) (v : Val) (f : Method) (h : P (.called v f)) :
    Emits P (callMethod v f) := by
  have hprim : ∀ u : Val, (∀ m, u ≠ .obj m) → Emits P (callMethod u f) := by
    intro u hu
    refine ⟨.throw (.typeError (f.key ++ " is not a function")), [], fun w => ?_,
      fun e he => by simp at he⟩
    cases u with
    | obj m => exact absurd rfl (hu m)
    | _ => simp [callMethod]
  cases v with
  | obj m =>
    cases hs : m.slot f with
    | absent =>
      exact ⟨.throw (.typeError (f.key ++ " is not a function")), [],
        fun w => by simp [callMethod, hs], fun e he => by simp at he⟩
    | returns =>
      exact ⟨.normal, [.called (.obj m) f], fun w => by simp [callMethod, hs, World.log],
        fun e he => by simp at he; rw [he]; exact h⟩
    | throws =>
      exact ⟨.throw (.mockThrew (.obj m) f), [.called (.obj m) f],
        fun w => by simp [callMethod, hs, World.log],
        fun e he => by simp at he; rw [he]; exact h⟩
  | undefined => exact hprim _ (fun m hm => by cases hm)
  | null => exact hprim _ (fun m hm => by cases hm)
  | bool b => exact hprim _ (fun m hm => by cases hm)
  | num n => exact hprim _ (fun m hm => by cases hm)
  | str s => exact hprim _ (fun m hm => by cases hm)

theorem emits_andThen (P : Event → Prop) (a b : Action) (ha : Emits P a) (hb : Emits P b) :
    Emits P (andThen a b) := by
  obtain ⟨c1, d1, h1, p1⟩ := ha
  obtain ⟨c2, d2, h2, p2⟩ := hb
  cases c1 with
  | normal =>
    refine ⟨c2, d1 ++ d2, fun w => ?_, fun e he => ?_⟩
    · have e2 := h2 { w with events := w.events ++ d1 }
      simp only [andThen, h1 w, e2, List.append_assoc]
    · rcases List.mem_append.mp he with h | h
      · exact p1 e h
      · exact p2 e h
  | throw err =>
    exact ⟨.throw err, d1, fun w => by simp [andThen, h1 w], p1⟩

theorem emits_ite (P : Event → Prop) (c : Bool) (a b : Action) (ha : Emits P a)
    (hb : Emits P b) : Emits P (if c = true then a else b) := by
  cases c
  · simpa using hb
  · simpa using ha

/-- The shared clearing code records only `clear` and `resetStats` calls on the
`logger`, `fileSystem` and `cache` mocks. -/
theorem emits_clearMocks (mocks : MockMap) :
    Emits (fun e => ∃ v f, e = .called v f ∧ f ≠ .reset ∧
      v ∈ [mocks.field "logger", mocks.field "fileSystem", mocks.field "cache"])
      (clearMocks mocks) := by
  unfold clearMocks
  refine emits_andThen _ _ _ (emits_ite _ _ _ _ ?_ (emits_skip _))
    (emits_andThen _ _ _ (emits_ite _ _ _ _ ?_ (emits_skip _))
      (emits_ite _ _ _ _ (emits_andThen _ _ _ ?_ ?_) (emits_skip _)))
  · exact emits_callMethod _ _ _ ⟨_, _, rfl, by decide, by simp⟩
  · exact emits_callMethod _ _ _ ⟨_, _, rfl, by decide, by simp⟩
  · exact emits_callMethod _ _ _ ⟨_, _, rfl, by decide, by simp⟩
  · exact emits_callMethod _ _ _ ⟨_, _, rfl, by decide, by simp⟩

/-- The loop over the values records only `reset` calls, on values that have a
`reset` function. -/
theorem emits_resetLoop (vs : List Val) :
    Emits (fun e => ∃ v, e = .called v .reset ∧ v ∈ vs ∧ v.hasFunction .reset = true)
      (resetLoop vs) := by
  induction vs with
  | nil => exact emits_skip _
  | cons v rest ih =>
    unfold resetLoop
    refine emits_andThen _ _ _ ?_ ?_
    · by_cases hc : (v.truthy && v.hasFunction .reset) = true
      · rw [if_pos hc]
        simp only [Bool.and_eq_true] at hc
        exact emits_callMethod _ _ _ ⟨v, rfl, by simp, hc.2⟩
      · rw [if_neg hc]
        exact emits_skip _
    · obtain ⟨c, d, hu, hp⟩ := ih
      refine ⟨c, d, hu, fun e he => ?_⟩
      obtain ⟨x, hx, hm, hf⟩ := hp e he
      exact ⟨x, hx, List.mem_cons_of_mem _ hm, hf⟩

theorem hasFunction_truthy (v : Val) (f : Method) (h : v.hasFunction f = true) :
    v.truthy = true := by
  cases v <;> simp_all [Val.hasFunction, Val.truthy]

theorem callMethod_returns (v : Val) (f : Method) (w : World) (h : v.returnsFrom f = true) :
    callMethod v f w = (.normal, { w with events := w.events ++ [.called v f] }) := by
  cases v with
  | obj m =>
    have hs : m.slot f = .returns := by simpa [Val.returnsFrom] using h
    simp [callMethod, hs, World.log]
  | _ => simp [Val.returnsFrom] at h

theorem clearMocks_safe (mocks : MockMap) (w : World) (h : cleanupSafe mocks = true) :
    clearMocks mocks w = (.normal, { w with events := w.events ++ expectedClearCalls mocks }) := by
  simp only [cleanupSafe, Bool.and_eq_true, Bool.or_eq_true, Bool.not_eq_true'] at h
  obtain ⟨⟨⟨hl, hf⟩, hc⟩, _⟩ := h
  unfold clearMocks expectedClearCalls
  by_cases tl : (mocks.field "logger").truthy = true <;>
  by_cases tf : (mocks.field "fileSystem").truthy = true <;>
  by_cases tc : (mocks.field "cache").truthy = true <;>
  simp_all [andThen, skip, callMethod_returns]

theorem resetLoop_safe (vs : List Val) (w : World)
    (h : ∀ v ∈ vs, v.hasFunction .reset = true → v.returnsFrom .reset = true) :
    resetLoop vs w = (.normal, { w with events := w.events ++
      (vs.filter fun v => v.hasFunction .reset).map fun v => Event.called v .reset }) := by
  induction vs generalizing w with
  | nil => simp [resetLoop, skip]
  | cons v rest ih =>
    have hrest : ∀ x ∈ rest, x.hasFunction .reset = true → x.returnsFrom .reset = true :=
      fun x hx => h x (List.mem_cons_of_mem _ hx)
    by_cases hf : v.hasFunction .reset = true
    · have ht := hasFunction_truthy v _ hf
      have hr := h v (List.mem_cons_self _ _) hf
      simp [resetLoop, andThen, hf, ht, callMethod_returns _ _ _ hr, ih _ hrest]
    · simp [resetLoop, andThen, hf, skip, ih _ hrest]

/-- When no call raises, `cleanup` completes normally, records its trace, and
removes the record from the registry. -/
theorem cleanup_safe (r : SetupRecord) (w : World) (h : cleanupSafe r.mocks = true) :
    cleanup r w = (.normal,
      { w with events := w.events ++ cleanupTrace r
               activeSetups := w.activeSetups.filter fun x => x.id != r.id }) := by
  have hall : ∀ v ∈ r.mocks.ownValues,
      v.hasFunction .reset = true → v.returnsFrom .reset = true := by
    simp only [cleanupSafe, Bool.and_eq_true, List.all_eq_true, Bool.or_eq_true,
      Bool.not_eq_true'] at h
    intro v hv hf
    rcases h.2 v hv with h1 | h1
    · rw [hf] at h1
      cases h1
    · exact h1
  simp [cleanup, andThen, World.log, clearMocks_safe _ _ h, resetLoop_safe _ _ hall, deregister,
    cleanupTrace, expectedResetCalls]

/-- Whatever the mocks do, `cleanup` records its entry once, followed by calls on
mocks only, and the registry is either as before or without the record. -/
theorem cleanup_events (r : SetupRecord) (w : World) :
    ∃ d, (cleanup r w).2.events = w.events ++ Event.cleanupEntered r.id :: d ∧
      (∀ x ∈ d, ∃ v f, x = Event.called v f) ∧
      ((cleanup r w).2.activeSetups = w.activeSetups ∨
        (cleanup r w).2.activeSetups = w.activeSetups.filter fun x => x.id != r.id) := by
  obtain ⟨c1, d1, h1, p1⟩ := emits_clearMocks r.mocks
  obtain ⟨c2, d2, h2, p2⟩ := emits_resetLoop r.mocks.ownValues
  have q1 : ∀ x ∈ d1, ∃ v f, x = Event.called v f := fun x hx => by
    obtain ⟨v, f, e, _⟩ := p1 x hx
    exact ⟨v, f, e⟩
  have q2 : ∀ x ∈ d2, ∃ v f, x = Event.called v f := fun x hx => by
    obtain ⟨v, e, _⟩ := p2 x hx
    exact ⟨v, _, e⟩
  cases c1 with
  | throw err =>
    refine ⟨d1, ?_, q1, Or.inl ?_⟩ <;> simp [cleanup, andThen, World.log, h1 _]
  | normal =>
    cases c2 with
    | throw err =>
      refine ⟨d1 ++ d2, ?_, ?_, Or.inl ?_⟩
      · simp [cleanup, andThen, World.log, h1 _, h2 _]
      · intro x hx
        rcases List.mem_append.mp hx with h | h
        · exact q1 x h
        · exact q2 x h
      · simp [cleanup, andThen, World.log, h1 _, h2 _]
    | normal =>
      refine ⟨d1 ++ d2, ?_, ?_, Or.inr ?_⟩
      · simp [cleanup, andThen, World.log, h1 _, h2 _, deregister]
      · intro x hx
        rcases List.mem_append.mp hx with h | h
        · exact q1 x h
        · exact q2 x h
      · simp [cleanup, andThen, World.log, h1 _, h2 _, deregister]

theorem map_snd_indexed (l : List (String × Val)) :
    (l.filterMap fun kv => (arrayIndex kv.1).map fun n => (n, kv.2)).map Prod.snd
      = (l.filter fun kv => (arrayIndex kv.1).isSome).map Prod.snd := by
  induction l with
  | nil => rfl
  | cons hd tl ih =>
    cases h : arrayIndex hd.1 with
    | none => simp [List.filterMap_cons, List.filter_cons, h, ih]
    | some n => simp [List.filterMap_cons, List.filter_cons, h, ih]

/-- The values listed by `Object.values(mocks)` are the values of the own
properties, each as often as it is stored. -/
theorem ownValues_perm (m : MockMap) : m.ownValues.Perm (m.own.map Prod.snd) := by
  unfold MockMap.ownValues
  have h1 : ((m.own.filterMap fun kv => (arrayIndex kv.1).map fun n => (n, kv.2)).insertionSort
      (fun a b => a.1 ≤ b.1)).map Prod.snd
      |>.Perm ((m.own.filter fun kv => (arrayIndex kv.1).isSome).map Prod.snd) := by
    rw [← map_snd_indexed]
    exact (List.perm_insertionSort _ _).map _
  have h2 : (m.own.filter fun kv => (arrayIndex kv.1).isNone)
      = m.own.filter fun kv => !(arrayIndex kv.1).isSome := by
    congr 1
    funext kv
    cases arrayIndex kv.1 <;> rfl
  rw [h2]
  refine (h1.append (List.Perm.refl _)).trans ?_
  rw [← List.map_append]
  exact (List.filter_append_perm _ _).map _

/-- The `reset` calls of `cleanup`: one per own property whose value has a `reset`
function, none on any other value. -/
theorem count_expectedResetCalls (mocks : MockMap) (v : Val) :
    (expectedResetCalls mocks).count (Event.called v .reset)
      = if v.hasFunction .reset = true then (mocks.own.map Prod.snd).count v else 0 := by
  unfold expectedResetCalls
  have hinj : Function.Injective fun v : Val => Event.called v .reset := by
    intro a b hab
    simpa using hab
  rw [List.count_map_of_injective _ _ hinj]
  by_cases hf : v.hasFunction .reset = true
  · rw [if_pos hf, List.count_filter (by simpa using hf)]
    exact (ownValues_perm mocks).count_eq v
  · rw [if_neg hf, List.count_eq_zero]
    intro hmem
    exact hf (by simpa using (List.mem_filter.mp hmem).2)

theorem not_registered_after_filter (l : List SetupRecord) (r : SetupRecord) :
    (l.filter fun x => x.id != r.id).any (fun x => x.id == r.id) = false := by
  induction l with
  | nil => rfl
  | cons hd tl ih =>
    by_cases h : hd.id = r.id
    · simp [List.filter_cons, h, ih]
    · simp only [List.filter_cons, bne_iff_ne, ne_eq, h, not_false_eq_true, if_true,
        List.any_cons, ih, Bool.or_false]
      simp [h]

/-! ## `cleanup` and `reset` -/

/-- C4, amended. For every setup record on which no call made by `cleanup`
raises (each truthy `logger`, `fileSystem` and `cache` mock has a `clear` that
returns, the `cache` mock a `resetStats` that returns, and every `reset`
function returns), `cleanup()` completes normally, having invoked `clear` on
each of the `logger`, `fileSystem` and `cache` mocks that is truthy and
`resetStats` on the `cache` mock, then `reset` once per MockMap entry whose mock
has a `reset` function and on no other value, and finally having removed the
record from the registry. -/
theorem cleanup_effect (r : SetupRecord) (w : World) (hsafe : cleanupSafe r.mocks = true) :
    cleanup r w = (.normal,
      { w with events := w.events ++
                 Event.cleanupEntered r.id ::
                   (expectedClearCalls r.mocks ++ expectedResetCalls r.mocks)
               activeSetups := w.activeSetups.filter fun x => x.id != r.id }) ∧
    (∀ v, (expectedResetCalls r.mocks).count (Event.called v .reset)
        = if v.hasFunction .reset = true then (r.mocks.own.map Prod.snd).count v else 0) ∧
    (∀ e ∈ expectedResetCalls r.mocks, ∃ v, e = Event.called v .reset) ∧
    (cleanup r w).2.registered r = false := by
  have hc := cleanup_safe r w hsafe
  refine ⟨hc, count_expectedResetCalls r.mocks, fun e he => ?_, ?_⟩
  · obtain ⟨v, _, hv⟩ := List.mem_map.mp he
    exact ⟨v, hv.symm⟩
  · rw [hc]
    exact not_registered_after_filter _ _

/-- C4 on the record of `setupTest(sampleOptions)`: the cache mock is cleared and
its statistics reset, the custom mock with a `reset` function is reset, the one
without is not, and the record leaves the registry. -/
theorem cleanup_effect_witness :
    cleanupSafe (setupTest sampleOptions World.initial).1.mocks = true ∧
    (setupTest sampleOptions World.initial).2.registered
      (setupTest sampleOptions World.initial).1 = true ∧
    (cleanup (setupTest sampleOptions World.initial).1
        (setupTest sampleOptions World.initial).2).2.events
      = [.cleanupEntered 0, .called (.obj fakeCache) .clear, .called (.obj fakeCache) .resetStats,
         .called (.obj fullMock) .reset] ∧
    (cleanup (setupTest sampleOptions World.initial).1
        (setupTest sampleOptions World.initial).2).2.registered
      (setupTest sampleOptions World.initial).1 = false :=
  ⟨by decide, by decide,
   by
     rw [(cleanup_effect (setupTest sampleOptions World.initial).1
       (setupTest sampleOptions World.initial).2 (by decide)).1]
     decide,
   (cleanup_effect (setupTest sampleOptions World.initial).1
     (setupTest sampleOptions World.initial).2 (by decide)).2.2.2⟩

/-- C4 as stated fails. `setupTest({customMocks: {logger: {}}})`: the `logger` mock
is present and not null, but `cleanup()` raises a type error before any call is
made, no `reset` loop runs, and the record stays registered.
`setupTest({customMocks: {logger: false}})`: the `logger` entry is present and not
null, and `cleanup()` makes no call on it. -/
theorem cleanup_counterexample :
    ((setupTest bareLoggerOptions World.initial).1.mocks.getOwn "logger"
        = some (.obj bareMock) ∧
      cleanup (setupTest bareLoggerOptions World.initial).1
          (setupTest bareLoggerOptions World.initial).2
        = (.throw (.typeError "clear is not a function"),
           { (setupTest bareLoggerOptions World.initial).2 with
             events := [.cleanupEntered 0] }) ∧
      (cleanup (setupTest bareLoggerOptions World.initial).1
          (setupTest bareLoggerOptions World.initial).2).2.registered
        (setupTest bareLoggerOptions World.initial).1 = true) ∧
    ((setupTest falseLoggerOptions World.initial).1.mocks.getOwn "logger"
        = some (.bool false) ∧
      (cleanup (setupTest falseLoggerOptions World.initial).1
          (setupTest falseLoggerOptions World.initial).2).2.events = [.cleanupEntered 0]) := by
  decide

/-- C5. For every setup record and every state, `reset()` records exactly the
`clear` and `resetStats` calls on the `logger`, `fileSystem` and `cache` mocks
that `cleanup()` records after its entry, it records no `reset` call, and it
changes nothing else: the registry is as before, whether or not the record is
in it. What `cleanup()` records beyond these calls are `reset` calls only. -/
theorem reset_effect (r : SetupRecord) (w : World) :
    ∃ d e, (reset r w).2 = { w with events := w.events ++ d } ∧
      (cleanup r w).2.events = w.events ++ Event.cleanupEntered r.id :: (d ++ e) ∧
      (∀ x ∈ d, ∃ v f, x = Event.called v f ∧ f ≠ .reset ∧
        v ∈ [r.mocks.field "logger", r.mocks.field "fileSystem", r.mocks.field "cache"]) ∧
      (∀ x ∈ e, ∃ v, x = Event.called v .reset) ∧
      (reset r w).2.activeSetups = w.activeSetups ∧
      (reset r w).2.registered r = w.registered r := by
  obtain ⟨c1, d1, h1, p1⟩ := emits_clearMocks r.mocks
  obtain ⟨c2, d2, h2, p2⟩ := emits_resetLoop r.mocks.ownValues
  have hreset : (reset r w).2 = { w with events := w.events ++ d1 } := by
    simp [reset, h1 w]
  cases c1 with
  | throw err =>
    refine ⟨d1, [], hreset, ?_, p1, fun x hx => by simp at hx, ?_, ?_⟩
    · simp [cleanup, andThen, World.log, h1 _]
    · rw [hreset]
    · rw [hreset]
      rfl
  | normal =>
    refine ⟨d1, d2, hreset, ?_, p1, fun x hx => ?_, ?_, ?_⟩
    · cases c2 <;> simp [cleanup, andThen, World.log, h1 _, h2 _, deregister]
    · obtain ⟨v, e, _⟩ := p2 x hx
      exact ⟨v, e⟩
    · rw [hreset]
    · rw [hreset]
      rfl

/-! ## `withTestContext` -/

theorem setupTest_events (o : Options) (w : World) : (setupTest o w).2.events = w.events := rfl

theorem count_cleanupEntered (i : Nat) (d : List Event)
    (h : ∀ x ∈ d, ∃ v f, x = Event.called v f) :
    (Event.cleanupEntered i :: d).count (Event.cleanupEntered i) = 1 := by
  have h0 : d.count (Event.cleanupEntered i) = 0 := by
    rw [List.count_eq_zero]
    intro hm
    obtain ⟨v, f, e⟩ := h _ hm
    cases e
  simp [h0]

/-- When the test's promise settles, `withTestContext` ends in the state that
`cleanup`, run on the record and in the state of that moment, produces. -/
theorem withTestContext_settled (o : Options) (testFn : TestFn) (w : World)
    (hsettles : (∃ v, (settlement o testFn w).run = .fulfils v) ∨
      (∃ e, (settlement o testFn w).run = .rejects e)) :
    (withTestContext o testFn w).2
      = (cleanup (settledRecord o testFn w) (settlement o testFn w).world).2 := by
  rcases hsettles with ⟨v, hv⟩ | ⟨e, he⟩
  · simp only [withTestContext, hv]
    split <;> simp_all
  · simp only [withTestContext, he]
    split <;> simp_all

/-- C3, amended. For every options object, every test function and every state:
while the promise returned by the test function is pending, `withTestContext`
does not run `cleanup()`; when that promise fulfils or rejects,
`withTestContext` runs `cleanup()` on the record it created exactly once, after
everything that happened up to the settling, on `setup.mocks` as the test left
it; and when no call made by that cleanup raises, the record is not in the
registry afterwards and the promise of `withTestContext` settles as the test's
promise did. -/
theorem withTestContext_cleanup (o : Options) (testFn : TestFn) (w : World) :
    ((settlement o testFn w).run = .pending →
      withTestContext o testFn w = (.pending, (settlement o testFn w).world)) ∧
    (((∃ v, (settlement o testFn w).run = .fulfils v) ∨
        (∃ e, (settlement o testFn w).run = .rejects e)) →
      (withTestContext o testFn w).2
        = (cleanup (settledRecord o testFn w) (settlement o testFn w).world).2 ∧
      (∃ d, (withTestContext o testFn w).2.events
          = (settlement o testFn w).world.events
            ++ Event.cleanupEntered (setupTest o w).1.id :: d ∧
        (∀ x ∈ d, ∃ v f, x = Event.called v f) ∧
        (Event.cleanupEntered (setupTest o w).1.id :: d).count
          (Event.cleanupEntered (setupTest o w).1.id) = 1) ∧
      (cleanupSafe (settlement o testFn w).mocks = true →
        (withTestContext o testFn w).2.registered (setupTest o w).1 = false ∧
        (∀ v, (settlement o testFn w).run = .fulfils v →
          (withTestContext o testFn w).1 = .fulfilled v) ∧
        (∀ e, (settlement o testFn w).run = .rejects e →
          (withTestContext o testFn w).1 = .rejected e))) := by
  refine ⟨fun hp => ?_, fun hsettles => ?_⟩
  · simp only [withTestContext, hp]
  · have hw := withTestContext_settled o testFn w hsettles
    obtain ⟨d, hd, hp, _⟩ :=
      cleanup_events (settledRecord o testFn w) (settlement o testFn w).world
    refine ⟨hw, ⟨d, ?_, hp, count_cleanupEntered _ d hp⟩, fun hsafe => ?_⟩
    · rw [hw, hd]
      rfl
    · have hc := cleanup_safe (settledRecord o testFn w) (settlement o testFn w).world hsafe
      refine ⟨?_, fun v hv => ?_, fun e he => ?_⟩
      · rw [hw, hc]
        exact not_registered_after_filter _ (settledRecord o testFn w)
      · simp only [withTestContext, hv, hc]
      · simp only [withTestContext, he, hc]

/-- C3 on samples. A test that uses a mock and whose promise rejects: the test's
call of the mock is recorded first, then `cleanup()` is entered once, the mocks
are cleared and reset, the record leaves the registry and the promise rejects
with the test's error. A test whose promise stays pending: `cleanup()` is not
entered and the record stays registered. -/
theorem withTestContext_cleanup_witness :
    ((∃ v, (settlement sampleOptions (usingDbTest (.testFailed 1)) World.initial).run
        = .fulfils v) ∨
      (∃ e, (settlement sampleOptions (usingDbTest (.testFailed 1)) World.initial).run
        = .rejects e)) ∧
    cleanupSafe (settlement sampleOptions (usingDbTest (.testFailed 1)) World.initial).mocks
      = true ∧
    (withTestContext sampleOptions (usingDbTest (.testFailed 1)) World.initial).2.registered
      (setupTest sampleOptions World.initial).1 = false ∧
    withTestContext sampleOptions (usingDbTest (.testFailed 1)) World.initial
      = (.rejected (.testFailed 1),
         { (setupTest sampleOptions World.initial).2 with
           activeSetups := []
           events := [.called (.obj fullMock) .reset,
             .cleanupEntered 0, .called (.obj fakeCache) .clear,
             .called (.obj fakeCache) .resetStats, .called (.obj fullMock) .reset] }) ∧
    (settlement sampleOptions hangingTest World.initial).run = .pending ∧
    withTestContext sampleOptions hangingTest World.initial
      = (.pending,
         { (setupTest sampleOptions World.initial).2 with
           events := [.called (.obj fullMock) .reset] }) :=
  ⟨Or.inr ⟨_, rfl⟩, by decide,
   (((withTestContext_cleanup sampleOptions (usingDbTest (.testFailed 1)) World.initial).2
      (Or.inr ⟨_, rfl⟩)).2.2 (by decide)).1,
   by decide, rfl,
   by
     rw [(withTestContext_cleanup sampleOptions hangingTest World.initial).1 rfl]
     decide⟩

/-- C3 as stated fails. A test function that throws before returning a promise:
`cleanup()` is never entered and the record stays registered. A test function
whose promise fulfils, with a `logger` mock that has no `clear`: `cleanup()` is
entered once, raises, and the record stays registered. The same happens when the
mocks are fine as built and the test itself assigns such a `logger` mock
(`withTestContext({useMocks: ['logger']}, async s => { s.mocks.logger = {} })`). -/
theorem withTestContext_counterexample :
    (withTestContext sampleOptions (throwingTest (.testFailed 1)) World.initial
        = (.threw (.testFailed 1), (setupTest sampleOptions World.initial).2) ∧
      (setupTest sampleOptions World.initial).2.events = [] ∧
      (setupTest sampleOptions World.initial).2.registered
        (setupTest sampleOptions World.initial).1 = true) ∧
    ((withTestContext bareLoggerOptions (idleTest .undefined) World.initial).1
        = .rejected (.typeError "clear is not a function") ∧
      (withTestContext bareLoggerOptions (idleTest .undefined) World.initial).2.events
        = [.cleanupEntered 0] ∧
      (withTestContext bareLoggerOptions (idleTest .undefined)
          World.initial).2.registered (setupTest bareLoggerOptions World.initial).1 = true) ∧
    (cleanupSafe (setupTest loggerOptions World.initial).1.mocks = true ∧
      (withTestContext loggerOptions (assignLoggerTest (.obj bareMock)) World.initial).1
        = .rejected (.typeError "clear is not a function") ∧
      (withTestContext loggerOptions (assignLoggerTest (.obj bareMock)) World.initial).2.events
        = [.cleanupEntered 0] ∧
      (withTestContext loggerOptions (assignLoggerTest (.obj bareMock))
          World.initial).2.registered (setupTest loggerOptions World.initial).1 = true) := by
  decide

/-! ## `cleanupAllTests` -/

theorem registered_after_filter_other (l : List SetupRecord) (r x : SetupRecord)
    (hne : x.id ≠ r.id) (h : l.any (fun y => y.id == x.id) = true) :
    (l.filter fun y => y.id != r.id).any (fun y => y.id == x.id) = true := by
  simp only [List.any_eq_true, beq_iff_eq] at h ⊢
  obtain ⟨y, hy, hyx⟩ := h
  refine ⟨y, List.mem_filter.mpr ⟨hy, ?_⟩, hyx⟩
  simp only [bne_iff_ne, ne_eq, hyx]
  exact hne

/-- The loop of the sweep over records that are registered, distinct, and whose
cleanup raises nothing: every one is cleaned, in order. -/
theorem sweepLoop_safe (l : List SetupRecord) (w : World) (hnd : (l.map (·.id)).Nodup)
    (hreg : ∀ r ∈ l, w.registered r = true) (hsafe : ∀ r ∈ l, cleanupSafe r.mocks = true) :
    ∃ acts, sweepLoop l w = (.normal,
      { w with events := w.events ++ l.flatMap cleanupTrace, activeSetups := acts }) := by
  induction l generalizing w with
  | nil =>
    refine ⟨w.activeSetups, ?_⟩
    simp [sweepLoop, skip]
  | cons r rest ih =>
    simp only [List.map_cons, List.nodup_cons] at hnd
    have hr := hreg r (List.mem_cons_self _ _)
    have hc := cleanup_safe r w (hsafe r (List.mem_cons_self _ _))
    have hreg1 : ∀ x ∈ rest, (cleanup r w).2.registered x = true := by
      intro x hx
      rw [hc]
      refine registered_after_filter_other _ r x ?_ (hreg x (List.mem_cons_of_mem _ hx))
      intro e
      exact hnd.1 (List.mem_map.mpr ⟨x, hx, e⟩)
    obtain ⟨acts, hacts⟩ := ih (cleanup r w).2 hnd.2 hreg1
      (fun x hx => hsafe x (List.mem_cons_of_mem _ hx))
    refine ⟨acts, ?_⟩
    rw [hc] at hacts
    simp only [sweepLoop, hr, if_true, andThen, hc, hacts, List.flatMap_cons,
      List.append_assoc]

theorem count_entered_flatMap (l : List SetupRecord) (i : Nat) :
    (l.flatMap cleanupTrace).count (Event.cleanupEntered i) = (l.map (·.id)).count i := by
  induction l with
  | nil => rfl
  | cons r rest ih =>
    have h0 : (expectedClearCalls r.mocks ++ expectedResetCalls r.mocks).count
        (Event.cleanupEntered i) = 0 := by
      rw [List.count_eq_zero]
      intro hm
      rcases List.mem_append.mp hm with h | h
      · simp only [expectedClearCalls, List.mem_append] at h
        rcases h with (h | h) | h <;> split at h <;> simp at h
      · obtain ⟨v, _, hv⟩ := List.mem_map.mp h
        cases hv
    rw [List.count_append] at h0
    by_cases hi : r.id = i
    · subst hi
      simp [List.flatMap_cons, cleanupTrace, List.count_cons, ih]
      omega
    · have hne : (Event.cleanupEntered r.id == Event.cleanupEntered i) = false := by
        simpa using hi
      have hne2 : (r.id == i) = false := by simpa using hi
      simp [List.flatMap_cons, cleanupTrace, List.count_cons, ih, hne, hne2]
      omega

/-- The sweep over records that are distinct and whose cleanup raises nothing
completes normally, records every cleanup in order, and empties the registry. -/
theorem cleanupAllTests_safe (w : World) (hnd : (w.activeSetups.map (·.id)).Nodup)
    (hsafe : ∀ r ∈ w.activeSetups, cleanupSafe r.mocks = true) :
    cleanupAllTests w = (.normal,
      { w with events := w.events ++ w.activeSetups.flatMap cleanupTrace
               activeSetups := [] }) := by
  have hreg : ∀ r ∈ w.activeSetups, w.registered r = true := by
    intro r hr
    simp only [World.registered, List.any_eq_true, beq_iff_eq]
    exact ⟨r, hr, rfl⟩
  obtain ⟨acts, hacts⟩ := sweepLoop_safe w.activeSetups w hnd hreg hsafe
  simp [cleanupAllTests, andThen, hacts]

/-- C6, amended. For every state of the registry in which no call made by any
registered record's `cleanup` raises, `cleanupAllTests()` completes normally,
enters `cleanup()` of every registered record exactly once, in registration
order, and leaves the registry empty. -/
theorem cleanupAllTests_effect (w : World) (hnd : (w.activeSetups.map (·.id)).Nodup)
    (hsafe : ∀ r ∈ w.activeSetups, cleanupSafe r.mocks = true) :
    cleanupAllTests w = (.normal,
      { w with events := w.events ++ w.activeSetups.flatMap cleanupTrace
               activeSetups := [] }) ∧
    (∀ r ∈ w.activeSetups,
      (w.activeSetups.flatMap cleanupTrace).count (Event.cleanupEntered r.id) = 1) ∧
    (cleanupAllTests w).2.activeSetups = [] := by
  have hmain := cleanupAllTests_safe w hnd hsafe
  refine ⟨hmain, fun r hr => ?_, by rw [hmain]⟩
  rw [count_entered_flatMap]
  exact List.count_eq_one_of_mem hnd (List.mem_map.mpr ⟨r, hr, rfl⟩)

/-- C6 on a sample: two records are registered, both are cleaned, the registry
ends empty. -/
theorem cleanupAllTests_effect_witness :
    (twoSafeSetups.activeSetups.map (·.id)).Nodup ∧
    (∀ r ∈ twoSafeSetups.activeSetups, cleanupSafe r.mocks = true) ∧
    twoSafeSetups.activeSetups.length = 2 ∧
    (cleanupAllTests twoSafeSetups).2.activeSetups = [] ∧
    (cleanupAllTests twoSafeSetups).2.events
      = [.cleanupEntered 0, .called (.obj fakeCache) .clear, .called (.obj fakeCache) .resetStats,
         .called (.obj fullMock) .reset,
         .cleanupEntered 1, .called (.obj fakeCache) .clear,
         .called (.obj fakeCache) .resetStats] :=
  ⟨by decide, by decide, by decide,
   (cleanupAllTests_effect twoSafeSetups (by decide) (by decide)).2.2,
   by decide⟩

/-- C6 as stated fails. Two records are registered, the first with a `logger`
mock that has no `clear`: `cleanupAllTests()` raises in the first cleanup, the
second record's `cleanup()` is never entered, and both records stay
registered. -/
theorem cleanupAllTests_counterexample :
    (twoSetups.activeSetups.map (·.id)) = [0, 1] ∧
    (cleanupAllTests twoSetups).1 = .throw (.typeError "clear is not a function") ∧
    (cleanupAllTests twoSetups).2.events = [.cleanupEntered 0] ∧
    (cleanupAllTests twoSetups).2.activeSetups = twoSetups.activeSetups := by
  decide

/-! ## A second `cleanup` -/

/-- C7, amended. For every setup record on which no call made by `cleanup`
raises: after its own `cleanup()`, and after a `cleanupAllTests()` sweep over
records of which the same holds, the record is not registered, and a further
`cleanup()` completes normally, repeats the same calls on the mocks, and leaves
the registry and everything else as the earlier call left them. -/
theorem cleanup_twice (r : SetupRecord) (w : World) (hsafe : cleanupSafe r.mocks = true) :
    ((cleanup r w).1 = .normal ∧
      (cleanup r w).2.registered r = false ∧
      cleanup r (cleanup r w).2 = (.normal,
        { (cleanup r w).2 with events := (cleanup r w).2.events ++ cleanupTrace r })) ∧
    ((w.activeSetups.map (·.id)).Nodup →
      (∀ x ∈ w.activeSetups, cleanupSafe x.mocks = true) →
      (cleanupAllTests w).1 = .normal ∧
      (cleanupAllTests w).2.registered r = false ∧
      cleanup r (cleanupAllTests w).2 = (.normal,
        { (cleanupAllTests w).2 with
          events := (cleanupAllTests w).2.events ++ cleanupTrace r })) := by
  have h1 := cleanup_safe r w hsafe
  refine ⟨⟨by rw [h1], ?_, ?_⟩, fun hnd hall => ?_⟩
  · rw [h1]
    exact not_registered_after_filter _ _
  · rw [cleanup_safe r _ hsafe, h1]
    simp [List.filter_filter]
  · have h2 := cleanupAllTests_safe w hnd hall
    refine ⟨by rw [h2], by rw [h2]; rfl, ?_⟩
    rw [cleanup_safe r _ hsafe, h2]
    simp

/-- C7 on a sample: the record of `setupTest(sampleOptions)` is cleaned twice, and
cleaned again after a sweep. -/
theorem cleanup_twice_witness :
    cleanupSafe (setupTest sampleOptions World.initial).1.mocks = true ∧
    (cleanup (setupTest sampleOptions World.initial).1
        (cleanup (setupTest sampleOptions World.initial).1
          (setupTest sampleOptions World.initial).2).2).1 = .normal ∧
    (cleanup (setupTest sampleOptions World.initial).1
        (cleanup (setupTest sampleOptions World.initial).1
          (setupTest sampleOptions World.initial).2).2).2.activeSetups = [] ∧
    (twoSafeSetups.activeSetups.map (·.id)).Nodup ∧
    (∀ x ∈ twoSafeSetups.activeSetups, cleanupSafe x.mocks = true) ∧
    (cleanup (setupTest sampleOptions World.initial).1 (cleanupAllTests twoSafeSetups).2).1
      = .normal ∧
    (cleanup (setupTest sampleOptions World.initial).1
        (cleanupAllTests twoSafeSetups).2).2.activeSetups = [] :=
  ⟨by decide,
   by
     rw [(cleanup_twice (setupTest sampleOptions World.initial).1
       (setupTest sampleOptions World.initial).2 (by decide)).1.2.2],
   by decide, by decide, by decide,
   by
     rw [((cleanup_twice (setupTest sampleOptions World.initial).1 twoSafeSetups
       (by decide)).2 (by decide) (by decide)).2.2],
   by decide⟩

/-- C7 as stated fails. The record of `setupTest({customMocks: {logger: {}}})`:
its first `cleanup()` raises a type error and leaves it registered, and the
second `cleanup()` raises the same error. The record of
`setupTest(sampleOptions)`: the second `cleanup()` does not do nothing, it calls
`clear`, `resetStats` and `reset` on the mocks again. -/
theorem cleanup_twice_counterexample :
    ((cleanup (setupTest bareLoggerOptions World.initial).1
          (setupTest bareLoggerOptions World.initial).2).1
        = .throw (.typeError "clear is not a function") ∧
      (cleanup (setupTest bareLoggerOptions World.initial).1
          (cleanup (setupTest bareLoggerOptions World.initial).1
            (setupTest bareLoggerOptions World.initial).2).2).1
        = .throw (.typeError "clear is not a function") ∧
      (cleanup (setupTest bareLoggerOptions World.initial).1
          (cleanup (setupTest bareLoggerOptions World.initial).1
            (setupTest bareLoggerOptions World.initial).2).2).2.registered
        (setupTest bareLoggerOptions World.initial).1 = true) ∧
    ((cleanup (setupTest sampleOptions World.initial).1
          (setupTest sampleOptions World.initial).2).2.events.length = 4 ∧
      (cleanup (setupTest sampleOptions World.initial).1
          (cleanup (setupTest sampleOptions World.initial).1
            (setupTest sampleOptions World.initial).2).2).2.events.drop 4
        = [.cleanupEntered 0, .called (.obj fakeCache) .clear,
           .called (.obj fakeCache) .resetStats, .called (.obj fullMock) .reset]) := by
  decide

/-! ## `testEach` -/

theorem testEach_with_it (cases : List TestCase) (run : Runner) (h : run.hasIt = true) :
    testEach cases run
      = (.normal, { run with tests := run.tests ++ cases.map fun c => (c.name, c) }) := by
  induction cases generalizing run with
  | nil => simp [testEach]
  | cons c rest ih =>
    rw [testEach, if_pos h, ih _ (by exact h)]
    simp

/-- C10, amended. For every non-empty list of cases, `testEach` fails with the
configuration error when no global `it` is defined, and registers nothing; for
the empty list it returns without error; and when `it` is defined it registers
exactly one test per case, in order, under that case's name. -/
theorem testEach_effect (cases : List TestCase) (run : Runner) :
    (run.hasIt = false → cases ≠ [] →
      testEach cases run
        = (.throw (.configError "testEach requires a test runner with global `it` function"),
           run)) ∧
    (run.hasIt = false → cases = [] → testEach cases run = (.normal, run)) ∧
    (run.hasIt = true →
      testEach cases run
        = (.normal, { run with tests := run.tests ++ cases.map fun c => (c.name, c) })) := by
  refine ⟨fun h hne => ?_, fun h he => ?_, testEach_with_it cases run⟩
  · cases cases with
    | nil => exact absurd rfl hne
    | cons c rest => simp [testEach, h]
  · subst he
    rfl

/-- C10 on samples: two cases without `it` fail and register nothing; two cases
with `it` are registered in order under their names. -/
theorem testEach_effect_witness :
    (⟨false, []⟩ : Runner).hasIt = false ∧ sampleCases ≠ [] ∧
    testEach sampleCases ⟨false, []⟩
      = (.throw (.configError "testEach requires a test runner with global `it` function"),
         ⟨false, []⟩) ∧
    (⟨true, []⟩ : Runner).hasIt = true ∧
    (testEach sampleCases ⟨true, []⟩).2.tests
      = [("adds", ⟨"adds", 1⟩), ("subtracts", ⟨"subtracts", 2⟩)] :=
  ⟨rfl, by decide,
   (testEach_effect sampleCases ⟨false, []⟩).1 rfl (by decide),
   rfl,
   by rw [(testEach_effect sampleCases ⟨true, []⟩).2.2 rfl]; rfl⟩

/-- C10 as stated fails. With no global `it` and an empty list of cases,
`testEach` returns normally: no configuration error is raised. -/
theorem testEach_counterexample :
    testEach [] ⟨false, []⟩ = (.normal, ⟨false, []⟩) := by
  decide


/-! ## Reading the recognized names -/

/-- Neither `Object.prototype` nor a mock object provides a property named
`logger`, `fileSystem` or `cache`: reading one of them from the MockMap gives
the own value or `undefined`, which is what `field` computes. -/
theorem get_recognized (m : MockMap) (k : String) (hk : k ∈ recognized) :
    m.get k = .value (m.field k) := by
  have hp : m.proto.has k = false := by
    simp only [recognized, List.mem_cons, List.mem_singleton, List.not_mem_nil, or_false] at hk
    cases hproto : m.proto with
    | objectPrototype => rcases hk with rfl | rfl | rfl <;> decide
    | null => rfl
    | object o =>
      rcases hk with rfl | rfl | rfl <;>
        simp [Proto.has, Mock.hasProperty, objectPrototypeKeys]
  unfold MockMap.get MockMap.field
  cases m.getOwn k <;> simp [hp]

end TestHelpers
